import Mathlib

/-!
# CroquetteShop client scripts: notifications.js and admin_chat.js

A shallow embedding of the two browser scripts under shop/static/shop/js.

Modelling conventions.

* JavaScript numbers are doubles. The numbers the scripts compute with are the
  results of parseInt, the integer constants passed to updateBadge and their
  sums, so the model holds the doubles whose value is an integer, the two
  infinities and NaN (type Num). An integer becomes a number by rounding to the
  nearest double, ties to even, as a numeric literal, parseInt and the addition
  of doubles do. Negative zero is identified with zero; the scripts never tell
  them apart.
* The document is modelled by the parts the scripts read or write: the element
  notifications-badge with its optional badge span, the element notifications-list
  with its li entries and the element trees below them, and the children of
  admin-chat-log.
* Browser built-ins whose code is not part of the repository (JSON.parse, the HTML
  fragment parser behind the innerHTML setter of a list entry) are parameters of
  the handlers that call them.
-/

namespace CroquetteShop

/-! ## JavaScript numbers -/

/-- Decimal digit character of d, for d below ten. -/
def digitChar (d : Nat) : Char := Char.ofNat (48 + d)

/-- Decimal digits of n, most significant first; fuel bounds the number of digits. -/
def natDigits : Nat → Nat → List Char
  | 0, _ => []
  | fuel + 1, n =>
    if n < 10 then [digitChar n] else natDigits fuel (n / 10) ++ [digitChar (n % 10)]

/-- The decimal numeral of n. -/
def decimal (n : Nat) : List Char := natDigits (n + 1) n

/-- A JavaScript number as the scripts meet it: a finite double whose value is
the integer value, an infinity, or NaN. -/
inductive Num where
  | fin (value : Int)
  | posInf
  | negInf
  | nan
  deriving DecidableEq, Repr

/-- Number of binary digits of n; fuel bounds it. -/
def bitLength : Nat → Nat → Nat
  | 0, _ => 0
  | fuel + 1, n => if n = 0 then 0 else bitLength fuel (n / 2) + 1

/-- The double nearest to the natural number n, ties to even; none when n
rounds to infinity. Up to 2^53 every natural number is a double; above, a
double keeps the 53 leading bits, and its value stays below 2^1024. -/
def roundNat (n : Nat) : Option Nat :=
  if n ≤ 2 ^ 53 then some n
  else
    let shift := bitLength n n - 53
    let q := n >>> shift
    let r := n - (q <<< shift)
    let half := 1 <<< (shift - 1)
    let q := if half < r ∨ (r = half ∧ q % 2 = 1) then q + 1 else q
    if bitLength (q <<< shift) (q <<< shift) ≤ 1024 then some (q <<< shift) else none

/-- The number that the integer z denotes: the nearest double. -/
def Num.ofInt : Int → Num
  | Int.ofNat n =>
    match roundNat n with
    | some m => .fin (Int.ofNat m)
    | none => .posInf
  | Int.negSucc n =>
    match roundNat (n + 1) with
    | some m => .fin (-Int.ofNat m)
    | none => .negInf

/-- Conversion ToBoolean on a number: zero and NaN are falsy. -/
def Num.truthy : Num → Bool
  | .fin z => z != 0
  | .nan => false
  | _ => true

/-- The operator a || b on numbers. -/
def Num.or (a b : Num) : Num := if a.truthy then a else b

/-- The operator a + b on numbers. -/
def Num.add : Num → Num → Num
  | .fin a, .fin b => Num.ofInt (a + b)
  | .nan, _ => .nan
  | _, .nan => .nan
  | .posInf, .negInf => .nan
  | .negInf, .posInf => .nan
  | .posInf, _ => .posInf
  | _, .posInf => .posInf
  | .negInf, _ => .negInf
  | _, .negInf => .negInf

/-- Math.max(0, x). -/
def Num.max0 : Num → Num
  | .fin z => .fin (max 0 z)
  | .posInf => .posInf
  | .negInf => .fin 0
  | .nan => .nan

/-- The test x <= 0. -/
def Num.leZero : Num → Bool
  | .fin z => decide (z ≤ 0)
  | .negInf => true
  | _ => false

/-- The test x > 0. -/
def Num.gtZero : Num → Bool
  | .fin z => decide (0 < z)
  | .posInf => true
  | _ => false

/-- The pairs (s, m) with s of k digits such that s × 10^(m - k) rounds to the
double n, for m the length of the numeral of n or one more: the candidates for a
k-digit significand of n in Number-to-string. -/
def expCandidates (n len k : Nat) : List (Nat × Nat) :=
  [len, len + 1].flatMap (fun m =>
    ([n / 10 ^ (m - k), n / 10 ^ (m - k) + 1].filter (fun s =>
      decide (10 ^ (k - 1) ≤ s) && decide (s < 10 ^ k) &&
        decide (roundNat (s * 10 ^ (m - k)) = some n))).map (fun s => (s, m)))

/-- Distance between two natural numbers. -/
def dist (a b : Nat) : Nat := if a ≤ b then b - a else a - b

/-- The candidate whose value is closest to n, an even significand winning a tie. -/
def closest (n k : Nat) : List (Nat × Nat) → Option (Nat × Nat)
  | [] => none
  | c :: cs =>
    match closest n k cs with
    | none => some c
    | some d =>
      let dc := dist (c.1 * 10 ^ (c.2 - k)) n
      let dd := dist (d.1 * 10 ^ (d.2 - k)) n
      if dc < dd ∨ (dc = dd ∧ c.1 % 2 = 0) then some c else some d

/-- The shortest significand of the double n: the least number of digits k, from
k on, that has a candidate, with that candidate. -/
def shortest (n len : Nat) : Nat → Nat → Option (Nat × Nat × Nat)
  | 0, _ => none
  | fuel + 1, k =>
    match closest n k (expCandidates n len k) with
    | some (s, m) => some (k, s, m)
    | none => shortest n len fuel (k + 1)

/-- Exponent form of Number-to-string, used from 10^21 on: the shortest
significand that reads back as n, a point after its first digit, and the
decimal exponent. -/
def expForm (n : Nat) : List Char :=
  match shortest n (decimal n).length 17 1 with
  | none => decimal n
  | some (_, s, m) =>
    match decimal s with
    | [] => []
    | d :: ds =>
      (if ds.isEmpty then [d] else d :: '.' :: ds) ++ 'e' :: '+' :: decimal (m - 1)

/-- Number to string conversion of JavaScript on a double whose value is the
natural number n: the decimal numeral below 10^21, exponent form from there on. -/
def natToString (n : Nat) : String :=
  String.mk (if n < 10 ^ 21 then decimal n else expForm n)

/-- Number to string conversion of JavaScript on a finite double whose value
is the integer z. -/
def numToString : Int → String
  | Int.ofNat n => natToString n
  | Int.negSucc n => String.mk ('-' :: (natToString (n + 1)).data)

/-- Number to string conversion of JavaScript (String(x), and the conversion
applied when a number is concatenated to a string or assigned to innerText). -/
def Num.toStr : Num → String
  | .fin z => numToString z
  | .posInf => "Infinity"
  | .negInf => "-Infinity"
  | .nan => "NaN"

/-- Code points that parseInt skips at the start of its argument (white space and
line terminators of ECMAScript). -/
def isStrWhiteSpace (c : Char) : Bool :=
  let n := c.toNat
  n = 9 || n = 10 || n = 11 || n = 12 || n = 13 || n = 32 || n = 160 || n = 5760 ||
  (8192 ≤ n && n ≤ 8202) || n = 8232 || n = 8233 || n = 8239 || n = 8287 ||
  n = 12288 || n = 65279

/-- Value of c as a digit in the given radix, if it is one. -/
def digitValue (radix : Nat) (c : Char) : Option Nat :=
  let n := c.toNat
  let v : Option Nat :=
    if 48 ≤ n ∧ n ≤ 57 then some (n - 48)
    else if 97 ≤ n ∧ n ≤ 122 then some (n - 87)
    else if 65 ≤ n ∧ n ≤ 90 then some (n - 55)
    else none
  match v with
  | some d => if d < radix then some d else none
  | none => none

/-- Sign prefix of parseInt: an optional minus or plus sign is removed. -/
def stripSign : List Char → Bool × List Char
  | c :: cs => if c = '-' then (true, cs) else if c = '+' then (false, cs) else (false, c :: cs)
  | [] => (false, [])

/-- Radix prefix of parseInt called without a radix: 0x or 0X selects base 16. -/
def stripRadix : List Char → Nat × List Char
  | c :: d :: cs =>
    if c = '0' ∧ (d = 'x' ∨ d = 'X') then (16, cs) else (10, c :: d :: cs)
  | cs => (10, cs)

/-- Value of a digit string in the given radix (characters that are not digits
count as zero; callers pass digits only). -/
def digitsValue (radix : Nat) (cs : List Char) : Nat :=
  cs.foldl (fun acc c => acc * radix + (digitValue radix c).getD 0) 0

/-- The global parseInt on a string, without radix argument: NaN when no digit
follows the sign and radix marks, else the double nearest to the signed value
of the digits (the standard lets an engine approximate a decimal numeral past
its twentieth significant digit; engines round the exact value, as here). -/
def parseInt (s : String) : Num :=
  let trimmed := s.toList.dropWhile isStrWhiteSpace
  let signed := stripSign trimmed
  let based := stripRadix signed.2
  let digits := based.2.takeWhile (fun c => (digitValue based.1 c).isSome)
  if digits.isEmpty then .nan
  else
    let v : Int := Int.ofNat (digitsValue based.1 digits)
    Num.ofInt (if signed.1 then -v else v)

/-- Primitive JavaScript values that occur as fields of an event payload; num n
is the number that the integer numeral n denotes. Numbers with a fraction are
not modelled. -/
inductive Prim where
  | undefined
  | null
  | bool (b : Bool)
  | num (n : Int)
  | str (s : String)
  deriving DecidableEq, Repr

/-- Result of JSON.parse as far as the scripts look at it: a primitive, or an
object whose properties hold primitives. -/
inductive Json where
  | prim (p : Prim)
  | obj (fields : List (String × Prim))
  deriving DecidableEq, Repr

/-- Outcome of running a handler: it returns, or an exception escapes from it;
either way the document is left in some state. -/
inductive Outcome (σ : Type) where
  | returned (s : σ)
  | threw (error : String) (s : σ)
  deriving DecidableEq, Repr

/-- The state a handler leaves behind. -/
def Outcome.state {σ : Type} : Outcome σ → σ
  | .returned s => s
  | .threw _ s => s

/-- Conversion ToString of JavaScript on a primitive. -/
def Prim.toStr : Prim → String
  | .undefined => "undefined"
  | .null => "null"
  | .bool true => "true"
  | .bool false => "false"
  | .num n => (Num.ofInt n).toStr
  | .str s => s

/-- Conversion ToBoolean of JavaScript on a primitive. -/
def Prim.truthy : Prim → Bool
  | .undefined => false
  | .null => false
  | .bool b => b
  | .num n => n != 0
  | .str s => s != ""

/-- The operator a || b on primitives. -/
def Prim.or (a b : Prim) : Prim := if a.truthy then a else b

/-- Property read data.key: a TypeError on null and undefined, undefined when
the property is missing. -/
def getProp (data : Json) (key : String) : Except String Prim :=
  match data with
  | .obj fields => .ok ((fields.lookup key).getD .undefined)
  | .prim .null => .error "TypeError"
  | .prim .undefined => .error "TypeError"
  | .prim _ => .ok .undefined

/-! ## notifications.js -/

/-- Values of Notification.permission. -/
inductive Permission where
  | default
  | granted
  | denied
  deriving DecidableEq, Repr

/-- What the script reads from window: the location of the page and the
Notification interface (none when window.Notification is missing). -/
structure Window where
  protocol : String
  host : String
  notification : Option Permission
  deriving DecidableEq, Repr

/-- What the script reads of an element: its id and its class list. -/
structure Elem where
  id : String
  classes : List String
  deriving DecidableEq, Repr

/-- An element below a list entry, with its child elements in document order. -/
inductive Node where
  | mk (el : Elem) (children : List Node)

/-- The element of a node. -/
def Node.el : Node → Elem
  | .mk el _ => el

/-- The child elements of a node. -/
def Node.children : Node → List Node
  | .mk _ children => children

/-- A li element of the notifications list: its id, its class list, its data-id
attribute (none when the attribute is missing) and the trees of its child
elements in document order. A list entry holds no further li element. -/
structure Item where
  id : String
  classes : List String
  dataId : Option String
  inner : List Node

/-- The part of the document that notifications.js works on.
badgeContainer is none when no element has id notifications-badge; otherwise it
holds the innerText of the badge span inside that element, if there is one.
list is none when no element has id notifications-list; otherwise it holds the
li children of that element, first child first. -/
structure Page where
  badgeContainer : Option (Option String)
  list : Option (List Item)

/-- Observable actions of the script on the browser. -/
inductive Effect where
  | openSocket (url : String)
  | requestPermission
  | showNotification (title : String) (body : String)
  deriving DecidableEq, Repr

/-- Function updateBadge(increment) of notifications.js, on the badge container. -/
def updateBadge (increment : Num) (badgeContainer : Option (Option String)) :
    Option (Option String) :=
  match badgeContainer with
  | none => none
  | some (some innerText) =>
    let n := (parseInt innerText).or (.fin 0)
    let n := (n.add (increment.or (.fin 1))).max0
    if n.leZero then some none else some (some n.toStr)
  | some none =>
    if increment.gtZero then some (some increment.toStr) else some none

/-- The number a badge stands for: parseInt(innerText) || 0 when the badge is
there, 0 when it is not. -/
def badgeValue (badgeContainer : Option (Option String)) : Num :=
  match badgeContainer with
  | some (some innerText) => (parseInt innerText).or (.fin 0)
  | _ => .fin 0

/-- The badge container after a sequence of updateBadge calls, one per delta, in
order; each delta is the number that the integer denotes. -/
def updateBadgeAll (deltas : List Int) (badgeContainer : Option (Option String)) :
    Option (Option String) :=
  deltas.foldl (fun b d => updateBadge (Num.ofInt d) b) badgeContainer

/-- Class list given to a new list entry by its className assignment. -/
def newItemClasses : List String :=
  ["list-group-item", "d-flex", "justify-content-between", "align-items-start",
   "list-group-item-warning"]

/-- The template string assigned to li.innerHTML in the onmessage handler. -/
def itemMarkup (verb url createdAt : Prim) : String :=
  "\n        <div>\n          <div>" ++ verb.toStr ++ " " ++
  (if url.truthy then "<a href=\"" ++ url.toStr ++ "\">Voir</a>" else "") ++
  "</div>\n          <small class=\"text-muted\">" ++ (createdAt.or (.str "")).toStr ++
  "</small>\n        </div>\n        <div>\n          " ++
  "<button class=\"btn btn-sm btn-outline-secondary mark-read\">Marquer lu</button>" ++
  "\n        </div>\n      "

/-- The li element built by the onmessage handler; parseInner is the fragment
parser of the browser, applied by the innerHTML setter. -/
def renderItem (parseInner : String → List Node) (data : Json) : Except String Item := do
  let id ← getProp data "id"
  let verb ← getProp data "verb"
  let url ← getProp data "url"
  let createdAt ← getProp data "created_at"
  pure { id := "", classes := newItemClasses, dataId := some (id.or (.str "")).toStr,
         inner := parseInner (itemMarkup verb url createdAt) }

/-- The browser notification raised by the onmessage handler when permission
has been granted. -/
def browserNotification (w : Window) (data : Json) : Except String (List Effect) :=
  if w.notification = some .granted then do
    let verb ← getProp data "verb"
    pure [.showNotification (verb.or (.str "Notification")).toStr (verb.or (.str "")).toStr]
  else pure []

/-- Handler notificationsSocket.onmessage, on an event whose data is eData. -/
def notificationsOnMessage (jsonParse : String → Option Json)
    (parseInner : String → List Node) (w : Window) (eData : String) (page : Page) :
    Outcome (Page × List Effect) :=
  match jsonParse eData with
  | none => .threw "SyntaxError" (page, [])
  | some data =>
    let page1 : Page := { page with badgeContainer := updateBadge (.fin 1) page.badgeContainer }
    let listed : Except String Page :=
      match page1.list with
      | none => .ok page1
      | some items =>
        match renderItem parseInner data with
        | .ok li => .ok { page1 with list := some (li :: items) }
        | .error err => .error err
    match listed with
    | .error err => .threw err (page1, [])
    | .ok page2 =>
      match browserNotification w data with
      | .ok effects => .returned (page2, effects)
      | .error err => .threw err (page2, [])

/-- The node that a path of child positions leads to in a forest: the first
position picks a tree, the next ones descend into it. -/
def forestGet : List Node → List Nat → Option Node
  | _, [] => none
  | forest, j :: rest =>
    match forest[j]? with
    | none => none
    | some node => if rest.isEmpty then some node else forestGet node.children rest

/-- The forest without the node at the path and everything below that node. -/
def forestRemove : List Node → List Nat → List Node
  | forest, [] => forest
  | forest, j :: rest =>
    if rest.isEmpty then forest.eraseIdx j
    else
      match forest[j]? with
      | none => forest
      | some node => forest.set j (.mk node.el (forestRemove node.children rest))

mutual
/-- The node with the class removed from its element and from every element
below it. -/
def Node.removeClassDeep (cls : String) : Node → Node
  | .mk el children =>
    .mk { el with classes := el.classes.filter (fun c => c != cls) }
      (removeClassForest cls children)
/-- The forest with the class removed from every element in it. -/
def removeClassForest (cls : String) : List Node → List Node
  | [] => []
  | node :: rest => node.removeClassDeep cls :: removeClassForest cls rest
end

mutual
/-- The node without the elements of the class below it. -/
def Node.removeElementsBelow (cls : String) : Node → Node
  | .mk el children => .mk el (removeElementsDeep cls children)
/-- The forest without the elements of the class and everything below them. -/
def removeElementsDeep (cls : String) : List Node → List Node
  | [] => []
  | node :: rest =>
    if node.el.classes.contains cls then removeElementsDeep cls rest
    else node.removeElementsBelow cls :: removeElementsDeep cls rest
end

/-- The element a click lands on: a list entry itself, the element below entry
i that the path leads to, or an element outside every list entry. -/
inductive Target where
  | entry (i : Nat)
  | inner (i : Nat) (path : List Nat)
  | outside (el : Elem)
  deriving DecidableEq, Repr

/-- The id and class list of the clicked element; none when the page has no
such element. -/
def Target.read (page : Page) : Target → Option Elem
  | .entry i => ((page.list.getD [])[i]?).map (fun it => { id := it.id, classes := it.classes })
  | .inner i path =>
    ((page.list.getD [])[i]?).bind (fun it => (forestGet it.inner path).map Node.el)
  | .outside el => some el

/-- Result of e.target.closest('li'), as an index into the list. -/
def Target.closestLi : Target → Option Nat
  | .entry i => some i
  | .inner i _ => some i
  | .outside _ => none

/-- A request sent by the click handler together with the continuation that
waits for its response: a POST to /notifications/mark_read/nid/ whose
continuation holds the entry and the clicked element, or a POST to
/notifications/mark_all_read/. The entry and the clicked element are kept as
their positions in the page at the click, so the continuation is to be run on a
page in which they have not moved. The CSRF header read from the cookie is not
part of the model. -/
inductive Pending where
  | markRead (nid : String) (li : Nat) (target : Target)
  | markAllRead
  deriving DecidableEq, Repr

/-- The click listener registered on the document: the requests it sends. -/
def onClick (target : Target) (page : Page) : List Pending :=
  match target.read page with
  | none => []
  | some el =>
    let all : List Pending := if el.id = "mark-all-read" then [.markAllRead] else []
    if el.classes.contains "mark-read" then
      match target.closestLi with
      | none => []
      | some i =>
        match ((page.list.getD [])[i]?).bind (fun it => it.dataId) with
        | none => []
        | some nid => if nid = "" then [] else .markRead nid i target :: all
    else all

/-- How a fetch followed by r.json() settles. -/
inductive FetchResult where
  | networkError
  | jsonError
  | body (data : Json)
  deriving DecidableEq, Repr

/-- Removes the class from the class list of an entry. -/
def Item.removeClass (cls : String) (it : Item) : Item :=
  { it with classes := it.classes.filter (fun c => c != cls) }

/-- The success branch of the mark-read continuation: the unread class leaves
the entry, the clicked element leaves the document with everything below it,
the badge drops by one. -/
def markReadDone (li : Nat) (target : Target) (page : Page) : Page :=
  let items := page.list.getD []
  let items1 :=
    match items[li]? with
    | none => items
    | some it => items.set li (it.removeClass "list-group-item-warning")
  let items2 :=
    match target with
    | .entry i => items1.eraseIdx i
    | .inner i path =>
      match items1[i]? with
      | none => items1
      | some it => items1.set i { it with inner := forestRemove it.inner path }
    | .outside _ => items1
  { badgeContainer := updateBadge (.fin (-1)) page.badgeContainer,
    list := page.list.map (fun _ => items2) }

/-- The success branch of the mark-all-read continuation: the unread class
leaves every element of the list, every element of class mark-read leaves the
list, and updateBadge(-9999) runs. -/
def markAllReadDone (page : Page) : Page :=
  let unmark (items : List Item) : List Item :=
    items.map (fun it =>
      { it with classes := it.classes.filter (fun c => c != "list-group-item-warning"),
                inner := removeClassForest "list-group-item-warning" it.inner })
  let strip (items : List Item) : List Item :=
    (items.filter (fun it => !it.classes.contains "mark-read")).map (fun it =>
      { it with inner := removeElementsDeep "mark-read" it.inner })
  { badgeContainer := updateBadge (.fin (-9999)) page.badgeContainer,
    list := page.list.map (fun items => strip (unmark items)) }

/-- The continuation of a request, run when its fetch settles as r. -/
def respond (p : Pending) (r : FetchResult) (page : Page) : Page :=
  match r with
  | .networkError => page
  | .jsonError => page
  | .body data =>
    match getProp data "ok" with
    | .error _ => page
    | .ok ok =>
      if ok.truthy then
        match p with
        | .markRead _ li target => markReadDone li target page
        | .markAllRead => markAllReadDone page
      else page

/-- Module initialisation of notifications.js: the socket it opens and the
permission request it makes. -/
def initNotifications (w : Window) : List Effect :=
  let wsScheme := if w.protocol = "https:" then "wss" else "ws"
  .openSocket (wsScheme ++ "://" ++ w.host ++ "/ws/notifications/") ::
    (match w.notification with
     | some p => if p ≠ .granted then [.requestPermission] else []
     | none => [])

/-! ## admin_chat.js -/

/-- A child node of a chat paragraph: a text node, or an element with its
className and textContent. -/
inductive Inline where
  | text (data : String)
  | element (tag : String) (className : String) (textContent : String)
  deriving DecidableEq, Repr

/-- A child element of admin-chat-log. -/
structure LogEntry where
  tag : String
  children : List Inline
  deriving DecidableEq, Repr

/-- Value stored by the textContent setter: null and undefined give the empty
string, everything else its string conversion. -/
def textContentOf : Prim → String
  | .null => ""
  | .undefined => ""
  | p => p.toStr

/-- The paragraph built by chatSocket.onmessage from the parsed payload. -/
def chatParagraph (sender message createdAt : Prim) : LogEntry :=
  { tag := "p",
    children :=
      [.element "strong" "" (sender.toStr ++ ":"),
       .text (" " ++ message.toStr ++ " "),
       .element "small" "text-muted" (textContentOf createdAt)] }

/-- Handler chatSocket.onmessage of admin_chat.js, on the children of
admin-chat-log. -/
def chatOnMessage (jsonParse : String → Option Json) (eData : String)
    (log : List LogEntry) : Outcome (List LogEntry) :=
  match jsonParse eData with
  | none => .returned log
  | some data =>
    match getProp data "sender", getProp data "message", getProp data "created_at" with
    | .ok sender, .ok message, .ok createdAt =>
      .returned (log ++ [chatParagraph sender message createdAt])
    | _, _, _ => .threw "TypeError" log

/-- An unread list entry as the onmessage handler renders it for the id 42 and
an event without url: a div holding a div and a small, and a div holding the
mark-read button. -/
def sampleItem : Item :=
  { id := "", classes := newItemClasses, dataId := some "42",
    inner :=
      [.mk { id := "", classes := [] }
         [.mk { id := "", classes := [] } [], .mk { id := "", classes := ["text-muted"] } []],
       .mk { id := "", classes := [] }
         [.mk { id := "", classes := ["btn", "btn-sm", "btn-outline-secondary", "mark-read"] }
            []]] }

/-- A page whose badge shows 3 and whose list holds the sample entry. -/
def samplePage : Page :=
  { badgeContainer := some (some (numToString 3)), list := some [sampleItem] }

/-- The chat payload of the scenario in the specification. -/
def aliceText : String :=
  "\x7b\"sender\":\"Alice\",\"message\":\"Hi\",\"created_at\":\"2024-01-01T10:00:00Z\"\x7d"

/-- A notification payload with the id 42. -/
def orderText : String :=
  "\x7b\"id\":42,\"verb\":\"Nouvelle commande\",\"created_at\":\"12:00\"\x7d"

/-- A notification payload with the id 0. -/
def zeroIdText : String :=
  "\x7b\"id\":0,\"verb\":\"Nouvelle commande\",\"created_at\":\"12:00\"\x7d"

/-- JSON.parse restricted to the payloads used as examples in this file: it
gives their value and treats every other string as malformed. -/
def sampleParse (text : String) : Option Json :=
  if text = aliceText then
    some (.obj [("sender", .str "Alice"), ("message", .str "Hi"),
                ("created_at", .str "2024-01-01T10:00:00Z")])
  else if text = orderText then
    some (.obj [("id", .num 42), ("verb", .str "Nouvelle commande"),
                ("created_at", .str "12:00")])
  else if text = zeroIdText then
    some (.obj [("id", .num 0), ("verb", .str "Nouvelle commande"),
                ("created_at", .str "12:00")])
  else none

/-! ## Start tags of a markup string -/

/-- States of the HTML tokenizer that matter for finding start tags: character
data, just after a less-than sign, inside a tag name, and inside a tag after
its name (name is none for an end tag; quote is the open quotation mark of an
attribute value, if one is open). -/
inductive TagScan where
  | data
  | tagOpen
  | tagName (acc : List Char)
  | inTag (name : Option String) (quote : Option Char)
  deriving DecidableEq, Repr

/-- Names of the start tags that the tokenizer emits for the characters cs,
starting in state st. -/
def scanStartTags : TagScan → List Char → List String
  | _, [] => []
  | .data, c :: cs =>
    if c = '<' then scanStartTags .tagOpen cs else scanStartTags .data cs
  | .tagOpen, c :: cs =>
    if c.isAlpha then scanStartTags (.tagName [c.toLower]) cs
    else if c = '/' then scanStartTags (.inTag none none) cs
    else if c = '<' then scanStartTags .tagOpen cs
    else scanStartTags .data cs
  | .tagName acc, c :: cs =>
    if c = '>' then String.mk acc.reverse :: scanStartTags .data cs
    else if c.isWhitespace || c = '/' then
      scanStartTags (.inTag (some (String.mk acc.reverse)) none) cs
    else scanStartTags (.tagName (c.toLower :: acc)) cs
  | .inTag name none, c :: cs =>
    if c = '>' then name.toList ++ scanStartTags .data cs
    else if c = Char.ofNat 34 || c = Char.ofNat 39 then scanStartTags (.inTag name (some c)) cs
    else scanStartTags (.inTag name none) cs
  | .inTag name (some q), c :: cs =>
    if c = q then scanStartTags (.inTag name none) cs
    else scanStartTags (.inTag name (some q)) cs

/-- Names of the start tags in a markup string, in document order: the elements
that assigning the string to innerHTML creates. -/
def startTags (markup : String) : List String := scanStartTags .data markup.toList

/-! ## Decimal numerals are read back by parseInt -/

theorem digitValue_digitChar (d : Nat) (h : d < 10) : digitValue 10 (digitChar d) = some d := by
  interval_cases d <;> rfl

theorem digitChar_toNat (d : Nat) (h : d < 10) : (digitChar d).toNat = 48 + d := by
  interval_cases d <;> rfl

theorem natDigits_ne_nil (fuel n : Nat) (h : n < fuel) : natDigits fuel n ≠ [] := by
  cases fuel with
  | zero => omega
  | succ f =>
    unfold natDigits
    split <;> simp

theorem natDigits_digits (fuel n : Nat) :
    ∀ c ∈ natDigits fuel n, 48 ≤ c.toNat ∧ c.toNat ≤ 57 := by
  induction fuel generalizing n with
  | zero => intro c hc; simp [natDigits] at hc
  | succ f ih =>
    intro c hc
    unfold natDigits at hc
    split at hc
    · simp only [List.mem_singleton] at hc
      subst hc
      rw [digitChar_toNat n (by omega)]
      omega
    · rw [List.mem_append] at hc
      rcases hc with hc | hc
      · exact ih _ c hc
      · simp only [List.mem_singleton] at hc
        subst hc
        rw [digitChar_toNat _ (Nat.mod_lt _ (by omega))]
        have := Nat.mod_lt n (show 10 > 0 by omega)
        omega

theorem digitsValue_append (radix : Nat) (cs : List Char) (c : Char) :
    digitsValue radix (cs ++ [c]) = digitsValue radix cs * radix + (digitValue radix c).getD 0 := by
  simp [digitsValue, List.foldl_append]

theorem natDigits_value (fuel n : Nat) (h : n < fuel) : digitsValue 10 (natDigits fuel n) = n := by
  induction fuel generalizing n with
  | zero => omega
  | succ f ih =>
    unfold natDigits
    split
    · rename_i hlt
      simp [digitsValue, digitValue_digitChar n hlt]
    · rw [digitsValue_append, ih (n / 10) (by omega),
        digitValue_digitChar _ (Nat.mod_lt _ (by omega))]
      simp only [Option.getD_some]
      omega

theorem digit_isSome (c : Char) (h : 48 ≤ c.toNat ∧ c.toNat ≤ 57) :
    (digitValue 10 c).isSome = true := by
  have h1 : c.toNat - 48 < 10 := by omega
  simp [digitValue, h, h1]

theorem digit_not_space (c : Char) (h : 48 ≤ c.toNat ∧ c.toNat ≤ 57) :
    isStrWhiteSpace c = false := by
  simp only [isStrWhiteSpace, Bool.or_eq_false_iff, decide_eq_false_iff_not, Bool.and_eq_false_imp,
    decide_eq_true_eq]
  omega

theorem digit_ne (c d : Char) (h : 48 ≤ c.toNat ∧ c.toNat ≤ 57)
    (hd : d.toNat < 48 ∨ 57 < d.toNat) : c ≠ d := by
  intro hcd
  subst hcd
  omega

/-- On a non-empty string of decimal digits parseInt returns the double nearest
to its decimal value. -/
theorem parseInt_digits (cs : List Char) (hne : cs ≠ [])
    (hd : ∀ c ∈ cs, 48 ≤ c.toNat ∧ c.toNat ≤ 57) :
    parseInt (String.mk cs) = Num.ofInt (Int.ofNat (digitsValue 10 cs)) := by
  obtain ⟨c, rest, rfl⟩ := List.exists_cons_of_ne_nil hne
  have hc := hd c (List.mem_cons_self _ _)
  have h1 : (c :: rest).dropWhile isStrWhiteSpace = c :: rest := by
    simp [List.dropWhile, digit_not_space c hc]
  have h2 : stripSign (c :: rest) = (false, c :: rest) := by
    have a : c ≠ '-' := digit_ne c _ hc (by decide)
    have b : c ≠ '+' := digit_ne c _ hc (by decide)
    simp [stripSign, a, b]
  have h3 : stripRadix (c :: rest) = (10, c :: rest) := by
    cases rest with
    | nil => rfl
    | cons d ds =>
      have hdd := hd d (by simp)
      have a : d ≠ 'x' := digit_ne d _ hdd (by decide)
      have b : d ≠ 'X' := digit_ne d _ hdd (by decide)
      simp [stripRadix, a, b]
  have h4 : (c :: rest).takeWhile (fun c => (digitValue 10 c).isSome) = c :: rest := by
    rw [List.takeWhile_eq_self_iff]
    intro x hx
    exact digit_isSome x (hd x hx)
  simp only [parseInt, String.toList, h1, h2, h3, h4]
  simp

theorem roundNat_exact (n : Nat) (h : n ≤ 2 ^ 53) : roundNat n = some n := by
  unfold roundNat
  rw [if_pos h]

/-- An integer of magnitude at most 2^53 is a double. -/
theorem ofInt_exact (z : Int) (h : z.natAbs ≤ 2 ^ 53) : Num.ofInt z = .fin z := by
  cases z with
  | ofNat n =>
    have hn : n ≤ 2 ^ 53 := by simpa using h
    simp only [Num.ofInt, roundNat_exact n hn]
  | negSucc n =>
    have hn : n + 1 ≤ 2 ^ 53 := by simpa [Int.natAbs] using h
    simp only [Num.ofInt, roundNat_exact (n + 1) hn]
    rfl

theorem natToString_decimal (n : Nat) (h : n ≤ 2 ^ 53) : natToString n = String.mk (decimal n) := by
  have h1 : n < 10 ^ 21 := lt_of_le_of_lt h (by norm_num)
  unfold natToString
  rw [if_pos h1]

theorem parseInt_natToString (n : Nat) (h : n ≤ 2 ^ 53) :
    parseInt (natToString n) = .fin (Int.ofNat n) := by
  rw [natToString_decimal n h]
  unfold decimal
  rw [parseInt_digits _ (natDigits_ne_nil _ _ (by omega)) (natDigits_digits _ _),
    natDigits_value _ _ (by omega)]
  exact ofInt_exact _ (by simpa using h)

theorem parseInt_numToString (n : Int) (h : 0 ≤ n) (h2 : n ≤ 2 ^ 53) :
    parseInt (numToString n) = .fin n := by
  cases n with
  | ofNat k =>
    have hk : k ≤ 2 ^ 53 := by
      have : (k : Int) ≤ 2 ^ 53 := h2
      exact_mod_cast this
    exact parseInt_natToString k hk
  | negSucc k => exact absurd h (by simp [Int.negSucc_lt_zero])

theorem decimal_ne_zero (n : Nat) (h : 0 < n) : decimal n ≠ ['0'] := by
  intro e
  have hv := natDigits_value (n + 1) n (by omega)
  unfold decimal at e
  rw [e] at hv
  have : digitsValue 10 ['0'] = 0 := by decide
  omega

theorem natToString_ne_zero (n : Nat) (h : 0 < n) : natToString n ≠ "0" := by
  intro e
  have e2 : (natToString n).data = ['0'] := by rw [e]
  unfold natToString at e2
  simp only at e2
  split at e2
  · exact decimal_ne_zero n h e2
  · unfold expForm at e2
    split at e2
    · exact decimal_ne_zero n h e2
    · split at e2
      · exact absurd e2 (by simp)
      · have hl := congrArg List.length e2
        simp only [List.length_append, List.length_cons] at hl
        split at hl <;> (simp at hl; try omega)

/-- A number that fails the test x <= 0 never prints as 0. -/
theorem toStr_ne_zero (x : Num) (h : x.leZero = false) : x.toStr ≠ "0" := by
  cases x with
  | fin z =>
    cases z with
    | ofNat n =>
      have hn : 0 < n := by
        simp only [Num.leZero, decide_eq_false_iff_not, not_le] at h
        have h2 : (0 : Int) < (n : Int) := h
        omega
      exact natToString_ne_zero n hn
    | negSucc n => simp [Num.leZero, Int.negSucc_lt_zero, le_of_lt] at h
  | posInf => decide
  | negInf => simp [Num.leZero] at h
  | nan => decide

theorem leZero_of_gtZero (x : Num) (h : x.gtZero = true) : x.leZero = false := by
  cases x <;> simp_all [Num.leZero, Num.gtZero]

/-! ## The badge -/

theorem or_zero_fin (v : Int) : (Num.fin v).or (.fin 0) = .fin v := by
  by_cases h : v = 0
  · subst h; rfl
  · simp [Num.or, Num.truthy, h]

theorem updateBadge_count (n d : Int) (hn : 0 ≤ n) (hd : d ≠ 0) (hn2 : n ≤ 2 ^ 53)
    (hs : (n + d).natAbs ≤ 2 ^ 53) :
    updateBadge (.fin d) (some (some (numToString n))) =
      if n + d ≤ 0 then some none else some (some (numToString (n + d))) := by
  have hdt : (Num.fin d).or (.fin 1) = .fin d := by simp [Num.or, Num.truthy, hd]
  simp only [updateBadge, parseInt_numToString n hn hn2, or_zero_fin, hdt, Num.add,
    ofInt_exact _ hs, Num.max0, Num.leZero, Num.toStr]
  by_cases h : n + d ≤ 0
  · have : max 0 (n + d) = 0 := max_eq_left h
    simp [this, h]
  · have : max 0 (n + d) = n + d := max_eq_right (by omega)
    simp [this, h]

/-- One call of updateBadge with a non-zero delta, on a badge that is absent
(count 0) or shows the count v, while the numbers stay within 2^53. -/
theorem updateBadge_step (v d : Int) (hv : 0 ≤ v) (hd : d ≠ 0)
    (hb : v.natAbs + d.natAbs ≤ 2 ^ 53) :
    updateBadge (.fin d) (if v ≤ 0 then some none else some (some (numToString v))) =
      if max 0 (v + d) ≤ 0 then some none else some (some (numToString (max 0 (v + d)))) := by
  by_cases h0 : v ≤ 0
  · have hv0 : v = 0 := by omega
    subst hv0
    rw [zero_add]
    by_cases hp : d > 0
    · have : max 0 d = d := max_eq_right (by omega)
      have hn : ¬ d ≤ 0 := by omega
      simp [updateBadge, Num.gtZero, Num.toStr, hp, this, hn]
    · have : max 0 d = 0 := max_eq_left (by omega)
      simp [updateBadge, Num.gtZero, hp, this]
  · rw [if_neg h0, updateBadge_count v d hv hd (by omega) (by omega)]
    by_cases h : v + d ≤ 0
    · have : max 0 (v + d) = 0 := max_eq_left h
      simp [this, h]
    · have : max 0 (v + d) = v + d := max_eq_right (by omega)
      simp [this, h]

theorem badgeValue_count (v : Int) (hv : 0 ≤ v) (hv2 : v ≤ 2 ^ 53) :
    badgeValue (if v ≤ 0 then some none else some (some (numToString v))) = .fin v := by
  by_cases h0 : v ≤ 0
  · have : v = 0 := by omega
    subst this
    simp [badgeValue]
  · simp [h0, badgeValue, parseInt_numToString v hv hv2, or_zero_fin]

theorem updateBadgeAll_count (ds : List Int) (hnz : ∀ d ∈ ds, d ≠ 0) (v : Int) (hv : 0 ≤ v)
    (hb : v.natAbs + (ds.map Int.natAbs).sum ≤ 2 ^ 53) :
    updateBadgeAll ds (if v ≤ 0 then some none else some (some (numToString v))) =
      (if ds.foldl (fun v d => max 0 (v + d)) v ≤ 0 then some none
       else some (some (numToString (ds.foldl (fun v d => max 0 (v + d)) v)))) := by
  induction ds generalizing v with
  | nil => rfl
  | cons d ds ih =>
    have hd : d ≠ 0 := hnz d (by simp)
    simp only [List.map_cons, List.sum_cons] at hb
    simp only [updateBadgeAll, List.foldl_cons]
    rw [ofInt_exact d (by omega), updateBadge_step v d hv hd (by omega)]
    exact ih (fun x hx => hnz x (by simp [hx])) _ (le_max_left _ _) (by omega)

theorem clamped_fold_nonneg (ds : List Int) (v : Int) (hv : 0 ≤ v) :
    0 ≤ ds.foldl (fun v d => max 0 (v + d)) v := by
  induction ds generalizing v with
  | nil => exact hv
  | cons d ds ih => exact ih _ (le_max_left _ _)

theorem clamped_fold_le (ds : List Int) (v : Int) (hv : 0 ≤ v) :
    (ds.foldl (fun v d => max 0 (v + d)) v).natAbs ≤ v.natAbs + (ds.map Int.natAbs).sum := by
  induction ds generalizing v with
  | nil => simp
  | cons d ds ih =>
    have := ih (max 0 (v + d)) (le_max_left _ _)
    simp only [List.foldl_cons, List.map_cons, List.sum_cons]
    omega

theorem clamped_fold_eq_sum (ds : List Int) (v : Int) (hv : 0 ≤ v)
    (hp : ∀ k, k < ds.length → 0 ≤ v + (ds.take k).sum) :
    ds.foldl (fun v d => max 0 (v + d)) v = max 0 (v + ds.sum) := by
  induction ds generalizing v with
  | nil =>
    simp [hv]
  | cons d ds ih =>
    cases ds with
    | nil => simp
    | cons e es =>
      have h1 := hp 1 (by simp)
      simp only [List.take_succ_cons, List.take_zero, List.sum_cons, List.sum_nil, add_zero] at h1
      rw [List.foldl_cons, max_eq_right h1, ih (v + d) h1]
      · simp only [List.sum_cons]
        congr 1
        ring
      · intro k hk
        have := hp (k + 1) (by simp at hk ⊢; omega)
        simp only [List.take_succ_cons, List.sum_cons] at this
        omega

theorem badgeValue_increment (b : Option (Option String)) (hb : b ≠ none) (v : Int)
    (hv : badgeValue b = .fin v) (h0 : 0 ≤ v) (h1 : v < 2 ^ 53) :
    badgeValue (updateBadge (.fin 1) b) = .fin (v + 1) := by
  have hs : (v + 1).natAbs ≤ 2 ^ 53 := by omega
  match b with
  | none => exact absurd rfl hb
  | some none =>
    have hv0 : v = 0 := by
      simp only [badgeValue, Num.fin.injEq] at hv
      omega
    subst hv0
    have h := parseInt_numToString 1 (by decide) (by norm_num)
    simp [updateBadge, badgeValue, Num.gtZero, Num.toStr, h, or_zero_fin]
  | some (some t) =>
    simp only [badgeValue] at hv
    have hm : max 0 (v + 1) = v + 1 := max_eq_right (by omega)
    have hn : ¬ (v + 1 ≤ 0) := by omega
    have h11 : (Num.fin 1).or (.fin 1) = .fin 1 := rfl
    simp only [updateBadge, hv, h11, Num.add, ofInt_exact _ hs, Num.max0, hm, Num.leZero,
      decide_eq_true_eq, if_neg hn, badgeValue, Num.toStr]
    rw [parseInt_numToString _ (by omega) (by omega), or_zero_fin]

theorem or_empty_toStr (v : Prim) (h : (∃ n, n ≠ 0 ∧ v = .num n) ∨ ∃ s, v = .str s) :
    (v.or (.str "")).toStr = v.toStr := by
  rcases h with ⟨n, hn, rfl⟩ | ⟨s, rfl⟩
  · simp [Prim.or, Prim.truthy, hn]
  · by_cases hs : s = ""
    · subst hs; rfl
    · simp [Prim.or, Prim.truthy, hs]

/-! ## Claims -/

/-- C1, as stated, fails: updateBadge clamps after every call, so the deltas
-1, 2 leave the badge at 2 although max(0, sum) is 1; a delta of 0 on a present
badge counts as 1, so the deltas 1, 0 leave the badge at 2 although max(0, sum)
is 1; and the additions are additions of doubles, so the deltas 2^53, 1 leave
the badge at 2^53 although max(0, sum) is 2^53 + 1. -/
theorem updateBadgeAll_not_clamped_sum :
    (badgeValue (updateBadgeAll [-1, 2] (some none)) = .fin 2 ∧
      max 0 ([-1, 2] : List Int).sum = 1) ∧
    (badgeValue (updateBadgeAll [1, 0] (some none)) = .fin 2 ∧
      max 0 ([1, 0] : List Int).sum = 1) ∧
    (badgeValue (updateBadgeAll [9007199254740992, 1] (some none)) = .fin 9007199254740992 ∧
      max 0 ([9007199254740992, 1] : List Int).sum = 9007199254740993) := by
  decide

/-- C1, amended: from a present container without badge, a sequence of non-zero
integer deltas whose absolute values add up to at most 2^53 leaves the badge
value at the running total clamped at zero after every call, and at
max(0, sum of the deltas) when no proper initial segment of the sequence has a
negative sum. -/
theorem updateBadgeAll_value (ds : List Int) (hnz : ∀ d ∈ ds, d ≠ 0)
    (hb : (ds.map Int.natAbs).sum ≤ 2 ^ 53) :
    badgeValue (updateBadgeAll ds (some none)) =
      .fin (ds.foldl (fun v d => max 0 (v + d)) 0) ∧
    ((∀ k, k < ds.length → 0 ≤ (ds.take k).sum) →
      badgeValue (updateBadgeAll ds (some none)) = .fin (max 0 ds.sum)) := by
  have h := updateBadgeAll_count ds hnz 0 le_rfl (by simpa using hb)
  simp only [le_refl, if_true] at h
  have hle := clamped_fold_le ds 0 le_rfl
  have hnn := clamped_fold_nonneg ds 0 le_rfl
  have hv : badgeValue (updateBadgeAll ds (some none)) =
      .fin (ds.foldl (fun v d => max 0 (v + d)) 0) := by
    rw [h]
    exact badgeValue_count _ hnn (by simp only [Int.natAbs_zero, zero_add] at hle; omega)
  refine ⟨hv, fun hp => ?_⟩
  rw [hv, clamped_fold_eq_sum ds 0 le_rfl (fun k hk => by simpa using hp k hk)]
  simp

theorem updateBadgeAll_value_witness :
    (∀ d ∈ ([2, -1, 3, -5] : List Int), d ≠ 0) ∧
    (([2, -1, 3, -5] : List Int).map Int.natAbs).sum ≤ 2 ^ 53 ∧
    (∀ k, k < ([2, -1, 3, -5] : List Int).length → 0 ≤ (([2, -1, 3, -5] : List Int).take k).sum) ∧
    badgeValue (updateBadgeAll [2, -1, 3, -5] (some none)) =
      .fin (max 0 ([2, -1, 3, -5] : List Int).sum) :=
  ⟨by decide, by decide, by decide,
    (updateBadgeAll_value [2, -1, 3, -5] (by decide) (by decide)).2 (by decide)⟩

set_option maxRecDepth 100000 in
/-- C8, as stated, fails: a badge whose text is 400 nines parses to Infinity, so
after updateBadge(1) the badge is still there and shows the text Infinity, which
is not a strictly positive integer. -/
theorem updateBadge_shows_infinity :
    updateBadge (Num.ofInt 1) (some (some (String.mk (List.replicate 400 '9')))) =
      some (some "Infinity") := by
  decide

/-- C8, amended: whatever the badge container holds and whatever the integer
delta, updateBadge never leaves a badge showing 0; and when the badge value v
and the delta d satisfy |v| + |d| < 2^53, after updateBadge the badge is absent
(no container, or a container without badge) or shows the decimal numeral of a
strictly positive integer. -/
theorem updateBadge_absent_or_positive (b : Option (Option String)) (d : Int) :
    updateBadge (Num.ofInt d) b ≠ some (some "0") ∧
    ∀ v : Int, badgeValue b = .fin v → v.natAbs + d.natAbs < 2 ^ 53 →
      (updateBadge (Num.ofInt d) b = none ∨ updateBadge (Num.ofInt d) b = some none ∨
        ∃ n : Nat, 0 < n ∧
          updateBadge (Num.ofInt d) b = some (some (String.mk (decimal n)))) := by
  constructor
  · match b with
    | none => simp [updateBadge]
    | some none =>
      by_cases hg : (Num.ofInt d).gtZero = true
      · have := toStr_ne_zero _ (leZero_of_gtZero _ hg)
        simp [updateBadge, hg, this]
      · simp [updateBadge, hg]
    | some (some t) =>
      by_cases hl : (((parseInt t).or (.fin 0)).add ((Num.ofInt d).or (.fin 1))).max0.leZero = true
      · simp [updateBadge, hl]
      · have := toStr_ne_zero _ (by simpa using hl)
        simp [updateBadge, hl, this]
  · intro v hv hb
    have hd : Num.ofInt d = .fin d := ofInt_exact d (by omega)
    match b with
    | none => exact Or.inl rfl
    | some none =>
      by_cases hp : 0 < d
      · refine Or.inr (Or.inr ⟨d.toNat, by omega, ?_⟩)
        have e : d = Int.ofNat d.toNat := by simp [Int.toNat_of_nonneg (le_of_lt hp)]
        have hs : numToString d = String.mk (decimal d.toNat) := by
          rw [e]
          exact natToString_decimal _ (by omega)
        simp [updateBadge, hd, Num.gtZero, hp, Num.toStr, hs]
      · exact Or.inr (Or.inl (by simp [updateBadge, hd, Num.gtZero, hp]))
    | some (some t) =>
      simp only [badgeValue] at hv
      have hinc : (Num.fin d).or (.fin 1) = .fin (if d = 0 then 1 else d) := by
        by_cases h0 : d = 0
        · subst h0; rfl
        · simp [Num.or, Num.truthy, h0]
      have hsum : (v + (if d = 0 then 1 else d)).natAbs ≤ 2 ^ 53 := by
        split <;> omega
      by_cases hn : max 0 (v + (if d = 0 then 1 else d)) ≤ 0
      · refine Or.inr (Or.inl ?_)
        simp only [updateBadge, hv, hd, hinc, Num.add, ofInt_exact _ hsum, Num.max0, Num.leZero,
          decide_eq_true_eq, if_pos hn]
      · refine Or.inr (Or.inr ⟨(max 0 (v + (if d = 0 then 1 else d))).toNat, by omega, ?_⟩)
        have e : max 0 (v + (if d = 0 then 1 else d)) =
            Int.ofNat (max 0 (v + (if d = 0 then 1 else d))).toNat := by
          simp [Int.toNat_of_nonneg (le_max_left 0 _)]
        have hs : numToString (max 0 (v + (if d = 0 then 1 else d))) =
            String.mk (decimal (max 0 (v + (if d = 0 then 1 else d))).toNat) := by
          conv_lhs => rw [e]
          exact natToString_decimal _ (by omega)
        simp only [updateBadge, hv, hd, hinc, Num.add, ofInt_exact _ hsum, Num.max0, Num.leZero,
          decide_eq_true_eq, if_neg hn, Num.toStr, hs]

theorem updateBadge_absent_or_positive_witness :
    badgeValue (some (some "7")) = .fin 7 ∧
    (7 : Int).natAbs + (-3 : Int).natAbs < 2 ^ 53 ∧
    (updateBadge (Num.ofInt (-3)) (some (some "7")) = none ∨
      updateBadge (Num.ofInt (-3)) (some (some "7")) = some none ∨
      ∃ n : Nat, 0 < n ∧
        updateBadge (Num.ofInt (-3)) (some (some "7")) = some (some (String.mk (decimal n)))) :=
  ⟨by decide, by decide,
    (updateBadge_absent_or_positive (some (some "7")) (-3)).2 7 (by decide) (by decide)⟩

/-- C2 at the badge count 10000: a click on the mark-all-read control sends the
bulk request, and its continuation, run on the response with ok true, calls
updateBadge(-9999), which leaves the badge in place showing 1. -/
theorem markAllRead_keeps_badge_at_10000 :
    onClick (.outside { id := "mark-all-read", classes := ["btn"] })
      { badgeContainer := some (some "10000"), list := some [] } = [.markAllRead] ∧
    (respond .markAllRead (.body (.obj [("ok", .bool true)]))
      { badgeContainer := some (some "10000"), list := some [] }).badgeContainer =
      some (some "1") := by
  decide

/-- Mark-all-read does clear the badge for every count from 1 to 9999. -/
theorem markAllRead_clears_below_10000 (page : Page) (n : Int) (fields : List (String × Prim))
    (hb : page.badgeContainer = some (some (numToString n))) (h1 : 1 ≤ n) (h2 : n ≤ 9999)
    (hok : fields.lookup "ok" = some (.bool true)) :
    (respond .markAllRead (.body (.obj fields)) page).badgeContainer = some none := by
  simp only [respond, getProp, hok, Option.getD_some, Prim.truthy, if_true, markAllReadDone, hb]
  rw [updateBadge_count n (-9999) (by omega) (by decide) (by omega) (by omega)]
  simp
  omega

theorem markAllRead_clears_at_3 :
    (respond .markAllRead (.body (.obj [("ok", .bool true)])) samplePage).badgeContainer =
      some none :=
  markAllRead_clears_below_10000 samplePage 3 [("ok", .bool true)] rfl (by decide) (by decide)
    (by decide)

/-- C4: the continuation of a mark-read request leaves the page (entry classes,
controls, badge) as it was when the fetch rejects, when decoding the body
rejects, or when the response is an object whose ok is false. -/
theorem markRead_failure_unchanged (page : Page) (nid : String) (li : Nat) (target : Target)
    (r : FetchResult)
    (h : r = .networkError ∨ r = .jsonError ∨
      ∃ fields, r = .body (.obj fields) ∧ fields.lookup "ok" = some (.bool false)) :
    respond (.markRead nid li target) r page = page := by
  rcases h with h | h | ⟨fields, h, hok⟩
  · subst h; rfl
  · subst h; rfl
  · subst h
    simp [respond, getProp, hok, Prim.truthy]

theorem markRead_failure_unchanged_witness :
    respond (.markRead "42" 0 (.inner 0 [1, 0])) (.body (.obj [("ok", .bool false)]))
      samplePage = samplePage :=
  markRead_failure_unchanged samplePage "42" 0 (.inner 0 [1, 0]) _
    (Or.inr (Or.inr ⟨[("ok", .bool false)], rfl, by decide⟩))

/-- C5: on a payload that parses to an object with string properties sender,
message and created_at, the chat handler returns with the prior children of the
log followed by one new p element, whose children are a strong element with
text sender followed by a colon, a text node holding the message between two
spaces, and a small element of class text-muted with text created_at; the
three fields end up as text of these nodes. -/
theorem chatOnMessage_appends (jsonParse : String → Option Json) (eData : String)
    (log : List LogEntry) (fields : List (String × Prim)) (sender message createdAt : String)
    (hparse : jsonParse eData = some (.obj fields))
    (hs : fields.lookup "sender" = some (.str sender))
    (hm : fields.lookup "message" = some (.str message))
    (hc : fields.lookup "created_at" = some (.str createdAt)) :
    chatOnMessage jsonParse eData log = .returned (log ++
      [{ tag := "p",
         children := [.element "strong" "" (sender ++ ":"),
                      .text (" " ++ message ++ " "),
                      .element "small" "text-muted" createdAt] }]) := by
  simp [chatOnMessage, hparse, getProp, hs, hm, hc, chatParagraph, textContentOf, Prim.toStr]

theorem chatOnMessage_appends_witness :
    chatOnMessage sampleParse aliceText [{ tag := "p", children := [.text "earlier"] }] =
    .returned [{ tag := "p", children := [.text "earlier"] },
      { tag := "p",
        children := [.element "strong" "" "Alice:", .text " Hi ",
                     .element "small" "text-muted" "2024-01-01T10:00:00Z"] }] :=
  chatOnMessage_appends sampleParse aliceText [{ tag := "p", children := [.text "earlier"] }]
    [("sender", .str "Alice"), ("message", .str "Hi"),
     ("created_at", .str "2024-01-01T10:00:00Z")] "Alice" "Hi" "2024-01-01T10:00:00Z"
    (by decide) (by decide) (by decide) (by decide)

/-- C6: on a payload that JSON.parse rejects, the chat handler returns normally
and the children of the log are what they were. -/
theorem chatOnMessage_malformed (jsonParse : String → Option Json) (eData : String)
    (log : List LogEntry) (h : jsonParse eData = none) :
    chatOnMessage jsonParse eData log = .returned log := by
  simp [chatOnMessage, h]

theorem chatOnMessage_malformed_witness :
    sampleParse "\x7b\"sender\":" = none ∧
    chatOnMessage sampleParse "\x7b\"sender\":" [{ tag := "p", children := [.text "earlier"] }] =
      .returned [{ tag := "p", children := [.text "earlier"] }] :=
  ⟨by decide, chatOnMessage_malformed sampleParse "\x7b\"sender\":" _ (by decide)⟩

/-- C9 on two events that differ in verb only: the verb is spliced into the
markup assigned to innerHTML, so a verb that holds a tag reaches the parser as
a tag and adds an element to the rendered entry. -/
theorem itemMarkup_verb_adds_element :
    itemMarkup (.str "<img src=x onerror=alert(1)>") .undefined (.str "12:00") =
      "\n        <div>\n          <div><img src=x onerror=alert(1)> </div>\n" ++
      "          <small class=\"text-muted\">12:00</small>\n        </div>\n" ++
      "        <div>\n          <button class=\"btn btn-sm btn-outline-secondary mark-read\">" ++
      "Marquer lu</button>\n        </div>\n      " ∧
    startTags (itemMarkup (.str "Nouvelle commande") .undefined (.str "12:00")) =
      ["div", "div", "small", "div", "button"] ∧
    startTags (itemMarkup (.str "<img src=x onerror=alert(1)>") .undefined (.str "12:00")) =
      ["div", "div", "img", "small", "div", "button"] := by
  refine ⟨rfl, ?_, ?_⟩ <;> decide

/-- C10, as stated, fails: with the permission already denied, module
initialisation still calls Notification.requestPermission once. -/
theorem init_requests_when_denied :
    (initNotifications
      { protocol := "https:", host := "shop.example", notification := some .denied }).count
      .requestPermission = 1 := by
  decide

/-- C10, amended: module initialisation calls Notification.requestPermission
exactly once when the Notification interface exists and the permission is not
granted (undetermined or denied), and not at all when the permission is granted
or the interface is missing. -/
theorem init_permission_requests (w : Window) :
    (initNotifications w).count .requestPermission =
      if w.notification = some .default ∨ w.notification = some .denied then 1 else 0 := by
  obtain ⟨protocol, host, notification⟩ := w
  rcases notification with _ | p
  · simp [initNotifications]
  · cases p <;> simp [initNotifications]

/-- C3, as stated, fails above 2^53: a badge showing 9007199254740993 parses to
the double 9007199254740992, so a successful mark-read leaves the badge at
9007199254740991 where n - 1 is 9007199254740992. -/
theorem markRead_badge_above_2_53 :
    (onClick (.inner 0 [1, 0])
      { badgeContainer := some (some "9007199254740993"), list := some [sampleItem] }).head? =
      some (.markRead "42" 0 (.inner 0 [1, 0])) ∧
    (respond (.markRead "42" 0 (.inner 0 [1, 0])) (.body (.obj [("ok", .bool true)]))
      { badgeContainer := some (some "9007199254740993"),
        list := some [sampleItem] }).badgeContainer = some (some "9007199254740991") ∧
    numToString (9007199254740993 - 1) = "9007199254740992" := by
  decide

/-- C3, amended: a click on an element of class mark-read below a list entry
whose data-id is non-empty sends the mark-read request for that id; when the
response is an object with ok true and the badge shows a count n with
1 <= n <= 2^53, the continuation removes list-group-item-warning from the
entry's classes, removes the clicked element (with everything below it) from
the entry, leaves every other entry as it was, and leaves the badge showing
n - 1, or absent when n is 1. -/
theorem markRead_ok (page : Page) (items : List Item) (i : Nat) (path : List Nat) (it : Item)
    (node : Node) (nid : String) (n : Int) (fields : List (String × Prim))
    (hlist : page.list = some items) (hit : items[i]? = some it)
    (hel : forestGet it.inner path = some node) (hcls : "mark-read" ∈ node.el.classes)
    (hid : it.dataId = some nid) (hne : nid ≠ "")
    (hbadge : page.badgeContainer = some (some (numToString n))) (hn : 1 ≤ n)
    (hn2 : n ≤ 2 ^ 53) (hok : fields.lookup "ok" = some (.bool true)) :
    (onClick (.inner i path) page).head? = some (.markRead nid i (.inner i path)) ∧
    ∃ items' : List Item,
      respond (.markRead nid i (.inner i path)) (.body (.obj fields)) page =
        { badgeContainer := if n = 1 then some none else some (some (numToString (n - 1))),
          list := some items' } ∧
      items'.length = items.length ∧
      items'[i]? = some { it with
        classes := it.classes.filter (fun c => c != "list-group-item-warning"),
        inner := forestRemove it.inner path } ∧
      "list-group-item-warning" ∉ it.classes.filter (fun c => c != "list-group-item-warning") ∧
      ∀ k, k ≠ i → items'[k]? = items[k]? := by
  have hi : i < items.length := by
    rcases Nat.lt_or_ge i items.length with h | h
    · exact h
    · rw [List.getElem?_eq_none h] at hit; exact absurd hit (by simp)
  constructor
  · simp [onClick, Target.read, Target.closestLi, hlist, hit, hel, hcls, hid, hne]
  · refine ⟨items.set i { it with
        classes := it.classes.filter (fun c => c != "list-group-item-warning"),
        inner := forestRemove it.inner path }, ?_, ?_, ?_, ?_, ?_⟩
    · have hs : (items.set i (it.removeClass "list-group-item-warning"))[i]? =
          some (it.removeClass "list-group-item-warning") := by
        rw [List.getElem?_set_self hi]
      simp only [respond, getProp, hok, Option.getD_some, Prim.truthy, if_true, markReadDone,
        hlist, hit, hs, List.set_set, Option.map_some', hbadge]
      rw [updateBadge_count n (-1) (by omega) (by decide) hn2 (by omega)]
      by_cases h1 : n = 1
      · subst h1; simp [Item.removeClass]
      · have h2 : ¬ n + -1 ≤ 0 := by omega
        simp [h1, h2, Item.removeClass, sub_eq_add_neg]
    · simp
    · rw [List.getElem?_set_self hi]
    · simp [List.mem_filter]
    · intro k hk
      rw [List.getElem?_set_ne (Ne.symm hk)]

theorem markRead_ok_witness :
    (onClick (.inner 0 [1, 0]) samplePage).head? = some (.markRead "42" 0 (.inner 0 [1, 0])) ∧
    ∃ items' : List Item,
      respond (.markRead "42" 0 (.inner 0 [1, 0])) (.body (.obj [("ok", .bool true)]))
        samplePage =
        { badgeContainer :=
            if (3 : Int) = 1 then some none else some (some (numToString (3 - 1))),
          list := some items' } ∧
      items'.length = [sampleItem].length ∧
      items'[0]? = some { sampleItem with
        classes := sampleItem.classes.filter (fun c => c != "list-group-item-warning"),
        inner := forestRemove sampleItem.inner [1, 0] } ∧
      "list-group-item-warning" ∉
        sampleItem.classes.filter (fun c => c != "list-group-item-warning") ∧
      ∀ k, k ≠ 0 → items'[k]? = [sampleItem][k]? :=
  markRead_ok samplePage [sampleItem] 0 [1, 0] sampleItem
    (.mk { id := "", classes := ["btn", "btn-sm", "btn-outline-secondary", "mark-read"] } [])
    "42" 3 [("ok", .bool true)]
    rfl rfl rfl (by decide) rfl (by decide) rfl (by decide) (by norm_num) (by decide)

/-- C7, as stated, fails on the identifier 0: the handler writes data.id || ''
to data-id, so the new entry gets an empty data-id, not the string 0. It also
fails on a badge showing 2^53: the sum 2^53 + 1 is not a double and rounds back
to 2^53, so the badge count does not grow. -/
theorem onMessage_id_zero_empty_dataId :
    sampleParse zeroIdText =
      some (.obj [("id", .num 0), ("verb", .str "Nouvelle commande"),
                  ("created_at", .str "12:00")]) ∧
    ((notificationsOnMessage sampleParse (fun _ => [])
        { protocol := "https:", host := "shop.example", notification := none } zeroIdText
        { badgeContainer := some none, list := some [] }).state.1.list.map
      (fun items => items.map Item.dataId)) = some [some ""] ∧
    (Prim.num 0).toStr = "0" ∧
    badgeValue (some (some "9007199254740992")) = .fin 9007199254740992 ∧
    badgeValue (notificationsOnMessage sampleParse (fun _ => [])
        { protocol := "https:", host := "shop.example", notification := none } orderText
        { badgeContainer := some (some "9007199254740992"),
          list := some [] }).state.1.badgeContainer = .fin 9007199254740992 := by
  decide

/-- C7, amended: on an event that parses to an object whose id is a non-zero
number or a string, on a page with the badge container and the list present and
a badge value v with 0 <= v < 2^53, the handler returns, the badge value is
v + 1, the list is one new entry followed by the prior entries in their order,
and the data-id of the new entry is the string form of the id. -/
theorem onMessage_badge_and_entry (jsonParse : String → Option Json)
    (parseInner : String → List Node) (w : Window) (eData : String) (page : Page)
    (fields : List (String × Prim)) (items : List Item) (idv : Prim) (v : Int)
    (hparse : jsonParse eData = some (.obj fields))
    (hid : fields.lookup "id" = some idv)
    (hidv : (∃ n, n ≠ 0 ∧ idv = .num n) ∨ ∃ s, idv = .str s)
    (hc : page.badgeContainer ≠ none) (hl : page.list = some items)
    (hv : badgeValue page.badgeContainer = .fin v) (h0 : 0 ≤ v) (h1 : v < 2 ^ 53) :
    ∃ (li : Item) (effects : List Effect),
      notificationsOnMessage jsonParse parseInner w eData page =
        .returned ({ badgeContainer := updateBadge (.fin 1) page.badgeContainer,
                     list := some (li :: items) }, effects) ∧
      badgeValue (updateBadge (.fin 1) page.badgeContainer) = .fin (v + 1) ∧
      li.dataId = some idv.toStr := by
  have hli : renderItem parseInner (.obj fields) = .ok
      { id := "", classes := newItemClasses, dataId := some idv.toStr,
        inner := parseInner (itemMarkup ((fields.lookup "verb").getD .undefined)
          ((fields.lookup "url").getD .undefined)
          ((fields.lookup "created_at").getD .undefined)) } := by
    simp only [renderItem, getProp, hid, Option.getD_some, bind, Except.bind, pure,
      Except.pure, or_empty_toStr idv hidv]
  refine ⟨{ id := "", classes := newItemClasses, dataId := some idv.toStr,
            inner := parseInner (itemMarkup ((fields.lookup "verb").getD .undefined)
              ((fields.lookup "url").getD .undefined)
              ((fields.lookup "created_at").getD .undefined)) },
    (if w.notification = some .granted then
      [.showNotification (((fields.lookup "verb").getD .undefined).or (.str "Notification")).toStr
        (((fields.lookup "verb").getD .undefined).or (.str "")).toStr]
     else []), ?_, badgeValue_increment _ hc v hv h0 h1, rfl⟩
  by_cases hg : w.notification = some .granted
  · simp only [notificationsOnMessage, hparse, hl, hli, browserNotification, hg, getProp,
      if_true, bind, Except.bind, pure, Except.pure]
  · simp only [notificationsOnMessage, hparse, hl, hli, browserNotification, hg, getProp,
      if_false, pure, Except.pure]

theorem onMessage_badge_and_entry_witness :
    ∃ (li : Item) (effects : List Effect),
      notificationsOnMessage sampleParse (fun _ => [])
        { protocol := "https:", host := "shop.example", notification := some .granted }
        orderText samplePage =
        .returned ({ badgeContainer := updateBadge (.fin 1) samplePage.badgeContainer,
                     list := some (li :: [sampleItem]) }, effects) ∧
      badgeValue (updateBadge (.fin 1) samplePage.badgeContainer) = .fin (3 + 1) ∧
      li.dataId = some (Prim.num 42).toStr :=
  onMessage_badge_and_entry sampleParse (fun _ => [])
    { protocol := "https:", host := "shop.example", notification := some .granted }
    orderText samplePage
    [("id", .num 42), ("verb", .str "Nouvelle commande"), ("created_at", .str "12:00")]
    [sampleItem] (.num 42) 3 (by decide) (by decide)
    (Or.inl ⟨42, by decide, rfl⟩) (by decide) rfl (by decide) (by decide) (by norm_num)

end CroquetteShop
